import Mathlib

/-!
Verification of the glot code-runner against its specification.

The development shallowly embeds the three source modules:
* `language.rs` — the per-language build/run instruction resolver;
* `cmd.rs` — process output classification and error rendering;
* `main.rs` — the build-then-run pipeline and result conversion.

File paths are modelled as plain strings with `/` as separator (no `.`/`..`
components), matching how the program uses them.  Durations are modelled as
nanosecond counts (`Nat`).  The effect of actually running a shell command
(`cmd::run`) is modelled as an oracle function supplied to the pipeline.
-/

namespace CodeRunner

/-- Model of `std::path::Path::file_name` for plain `/`-separated paths:
the part of the string after the last `/`. -/
def pathFileName (p : String) : String :=
  String.mk ((p.data.reverse.takeWhile (fun c => c != '/')).reverse)

/-- Index of the last `.` in a list of characters, if any. -/
def lastDotIdx : List Char → Option Nat
  | [] => none
  | c :: cs =>
    match lastDotIdx cs with
    | some i => some (i + 1)
    | none => if c = '.' then some 0 else none

/-- Model of `std::path::Path::extension`: the part of the file name after the
last `.`; `none` when there is no `.` or the only `.` starts the file name. -/
def pathExtension (p : String) : Option String :=
  let name := pathFileName p
  if name = "" then none
  else
    match lastDotIdx name.data with
    | none => none
    | some 0 => none
    | some i => some (String.mk (name.data.drop (i + 1)))

/-- Model of `std::path::Path::file_stem`: the file name up to (not including)
the last `.`; the whole name when there is no `.` or the only `.` starts it. -/
def pathFileStem (p : String) : Option String :=
  let name := pathFileName p
  if name = "" then none
  else
    match lastDotIdx name.data with
    | none => some name
    | some 0 => some name
    | some i => some (String.mk (name.data.take i))

/-- `non_empty_vec.rs`: a vector with a distinguished head. -/
structure NonEmptyVec (α : Type) where
  head : α
  tail : List α
deriving Repr, DecidableEq

/-- `NonEmptyVec::parts`. -/
def NonEmptyVec.parts (v : NonEmptyVec α) : α × List α := (v.head, v.tail)

/-- `language.rs`: the `Language` enumeration. -/
inductive Language where
  | Assembly | Ats | Bash | C | Clisp | Clojure | Cobol | CoffeeScript
  | Cpp | Crystal | Csharp | D | Dart | Elixir | Elm | Erlang
  | Fsharp | Go | Groovy | Guile | Hare | Haskell | Idris | Java
  | JavaScript | Julia | Kotlin | Lua | Mercury | Nim | Nix | Ocaml
  | Pascal | Perl | Php | Python | Raku | Ruby | Rust | SaC
  | Scala | Swift | TypeScript | Zig
deriving Repr, DecidableEq

/-- `language.rs`: `RunInstructions`. -/
structure RunInstructions where
  build_commands : List String
  run_command : String
deriving Repr, DecidableEq

/-- `language.rs`: `filter_by_extension` — keep the files whose extension is
exactly the given string. -/
def filter_by_extension (files : List String) (ext : String) : List String :=
  files.filter (fun file => pathExtension file == some ext)

/-- `language.rs`: `space_separated_files`. -/
def space_separated_files (files : List String) : String :=
  String.intercalate " " files

/-- `language.rs`: `source_files`. -/
def source_files (files : List String) (ext : String) : String :=
  space_separated_files (filter_by_extension files ext)

/-- Rust `str::is_ascii`: every character is ASCII. -/
def str_is_ascii (s : String) : Bool :=
  s.data.all (fun c => c.toNat < 128)

/-- Number of bytes of the UTF-8 encoding of a character (Rust `char::len_utf8`). -/
def charUtf8Size (c : Char) : Nat :=
  if c.toNat < 0x80 then 1
  else if c.toNat < 0x800 then 2
  else if c.toNat < 0x10000 then 3
  else 4

/-- Rust `str::len`: the length of the string in bytes of its UTF-8 encoding. -/
def strByteLen (s : String) : Nat :=
  (s.data.map charUtf8Size).sum

/-- Rust `u8::to_ascii_uppercase` restricted to characters. -/
def toAsciiUpper (c : Char) : Char :=
  if 97 ≤ c.toNat ∧ c.toNat ≤ 122 then Char.ofNat (c.toNat - 32) else c

/-- `language.rs`: `titlecase_ascii` — upper-case the first character unless the
string is non-ASCII or has byte length below 2. -/
def titlecase_ascii (s : String) : String :=
  if str_is_ascii s = false ∨ strByteLen s < 2 then s
  else
    match s.data with
    | [] => s
    | head :: tail => String.mk (toAsciiUpper head :: tail)

/-- `language.rs`: `run_instructions` — the per-language dispatch table. -/
def run_instructions (language : Language) (files : NonEmptyVec String) :
    RunInstructions :=
  let (main_file_str, other_files) := files.parts
  match language with
  | .Assembly =>
    { build_commands := ["nasm -f elf64 -o a.o " ++ main_file_str, "ld -o a.out a.o"],
      run_command := "./a.out" }
  | .Ats =>
    { build_commands := ["patscc -o a.out " ++ main_file_str ++ " " ++ source_files other_files "dats"],
      run_command := "./a.out" }
  | .Bash =>
    { build_commands := [], run_command := "bash " ++ main_file_str }
  | .C =>
    { build_commands := ["clang -o a.out -lm " ++ main_file_str ++ " " ++ source_files other_files "c"],
      run_command := "./a.out" }
  | .Clisp =>
    { build_commands := [],
      run_command := "sbcl --noinform --non-interactive --load " ++ main_file_str }
  | .Clojure =>
    { build_commands := [], run_command := "clj -M " ++ main_file_str }
  | .Cobol =>
    { build_commands := ["cobc -x -o a.out " ++ main_file_str ++ " " ++ source_files other_files "cob"],
      run_command := "./a.out" }
  | .CoffeeScript =>
    { build_commands := [], run_command := "coffee " ++ main_file_str }
  | .Cpp =>
    { build_commands := ["clang++ -std=c++11 -o a.out " ++ main_file_str ++ " " ++ source_files other_files "c"],
      run_command := "./a.out" }
  | .Crystal =>
    { build_commands := [], run_command := "crystal run " ++ main_file_str }
  | .Csharp =>
    { build_commands := ["mcs -out:a.exe " ++ main_file_str ++ " " ++ source_files other_files "cs"],
      run_command := "mono a.exe" }
  | .D =>
    { build_commands := ["dmd -ofa.out " ++ main_file_str ++ " " ++ source_files other_files "d"],
      run_command := "./a.out" }
  | .Dart =>
    { build_commands := [], run_command := "dart " ++ main_file_str }
  | .Elixir =>
    { build_commands := [],
      run_command := "elixirc " ++ main_file_str ++ " " ++ source_files other_files "ex" }
  | .Elm =>
    { build_commands := ["elm make --output a.js " ++ main_file_str],
      run_command := "elm-runner a.js" }
  | .Erlang =>
    { build_commands := (filter_by_extension other_files "erl").map (fun file => "erlc " ++ file),
      run_command := "escript " ++ main_file_str }
  | .Fsharp =>
    { build_commands := ["fsharpc --out:a.exe " ++
        space_separated_files ((filter_by_extension other_files "fs").reverse) ++ " " ++ main_file_str],
      run_command := "mono a.exe" }
  | .Go =>
    { build_commands := ["go build -o a.out " ++ main_file_str], run_command := "./a.out" }
  | .Groovy =>
    { build_commands := [], run_command := "groovy " ++ main_file_str }
  | .Guile =>
    { build_commands := [],
      run_command := "guile --no-debug --fresh-auto-compile --no-auto-compile -s " ++ main_file_str }
  | .Hare =>
    { build_commands := ["hare build -o a.out " ++ main_file_str], run_command := "./a.out" }
  | .Haskell =>
    { build_commands := [], run_command := "runghc " ++ main_file_str }
  | .Idris =>
    { build_commands := ["idris2 -o a.out --output-dir . " ++ main_file_str],
      run_command := "./a.out" }
  | .Java =>
    { build_commands := ["javac " ++ main_file_str],
      run_command := "java " ++ titlecase_ascii ((pathFileStem main_file_str).getD "Main") }
  | .JavaScript =>
    { build_commands := [], run_command := "node " ++ main_file_str }
  | .Julia =>
    { build_commands := [], run_command := "julia " ++ main_file_str }
  | .Kotlin =>
    { build_commands := ["kotlinc " ++ main_file_str],
      run_command := "kotlin " ++ titlecase_ascii ((pathFileStem main_file_str).getD "Main") ++ "Kt" }
  | .Lua =>
    { build_commands := [], run_command := "lua " ++ main_file_str }
  | .Mercury =>
    { build_commands := ["mmc -o a.out " ++ main_file_str ++ " " ++ source_files other_files "m"],
      run_command := "./a.out" }
  | .Nim =>
    { build_commands := [],
      run_command := "nim --hints:off --verbosity:0 compile --run " ++ main_file_str }
  | .Nix =>
    { build_commands := [], run_command := "nix-instantiate --eval " ++ main_file_str }
  | .Ocaml =>
    { build_commands := ["ocamlc -o a.out " ++
        space_separated_files ((filter_by_extension other_files "ml").reverse) ++ " " ++ main_file_str],
      run_command := "./a.out" }
  | .Pascal =>
    { build_commands := ["fpc -oa.out " ++ main_file_str], run_command := "./a.out" }
  | .Perl =>
    { build_commands := [], run_command := "perl " ++ main_file_str }
  | .Php =>
    { build_commands := [], run_command := "php " ++ main_file_str }
  | .Python =>
    { build_commands := [], run_command := "python " ++ main_file_str }
  | .Raku =>
    { build_commands := [], run_command := "raku " ++ main_file_str }
  | .Ruby =>
    { build_commands := [], run_command := "ruby " ++ main_file_str }
  | .Rust =>
    { build_commands := ["rustc -o a.out " ++ main_file_str], run_command := "./a.out" }
  | .SaC =>
    { build_commands := ["sac2c -t seq -o a.out " ++ main_file_str ++ " " ++ source_files other_files "c"],
      run_command := "./a.out" }
  | .Scala =>
    { build_commands := ["scalac " ++ main_file_str ++ " " ++ source_files other_files "scala"],
      run_command := "scala Main" }
  | .Swift =>
    { build_commands := ["swiftc -o a.out " ++ main_file_str ++ " " ++ source_files other_files "swift"],
      run_command := "./a.out" }
  | .TypeScript =>
    { build_commands := ["tsc -outFile a.js " ++ main_file_str ++ " " ++ source_files other_files "ts"],
      run_command := "node a.js" }
  | .Zig =>
    { build_commands := [], run_command := "zig run " ++ main_file_str }

/-- `cmd.rs`: `SuccessOutput` (duration in nanoseconds). -/
structure SuccessOutput where
  stdout : String
  stderr : String
  duration : Nat
deriving Repr, DecidableEq

/-- `cmd.rs`: `ErrorOutput`. -/
structure ErrorOutput where
  stdout : String
  stderr : String
  exit_code : Option Int
deriving Repr, DecidableEq

/-- `cmd.rs`: `ExecuteError`; the wrapped `io::Error` values are modelled by
their rendered messages. -/
inductive ExecuteError where
  | execute (err : String)
  | captureStdin
  | writeStdin (err : String)
  | waitForChild (err : String)
deriving Repr, DecidableEq

/-- `std::str::Utf8Error`: position of the first invalid byte and, when the
invalid sequence is complete, its length. -/
structure Utf8Error where
  valid_up_to : Nat
  error_len : Option Nat
deriving Repr, DecidableEq

/-- `std::string::FromUtf8Error`: the rejected bytes together with the
`Utf8Error` describing the first failure. -/
structure FromUtf8Error where
  bytes : List Nat
  error : Utf8Error
deriving Repr, DecidableEq

/-- `cmd.rs`: `OutputError`. -/
inductive OutputError where
  | exitFailure (err : ErrorOutput)
  | readStdout (err : FromUtf8Error)
  | readStderr (err : FromUtf8Error)
deriving Repr, DecidableEq

/-- `cmd.rs`: `Error` (named `CmdError` here to distinguish it from the
`main.rs` error type; duration in nanoseconds). -/
inductive CmdError where
  | execute (err : ExecuteError) (duration : Nat)
  | output (err : OutputError) (duration : Nat)
deriving Repr, DecidableEq

/-- `cmd.rs`: `Error::duration`. -/
def CmdError.duration : CmdError → Nat
  | .execute _ duration => duration
  | .output _ duration => duration

/-- `cmd.rs`: `impl fmt::Display for ExecuteError`. -/
def executeErrorDisplay : ExecuteError → String
  | .execute err => err
  | .captureStdin => "Failed to capture stdin."
  | .writeStdin err => "Failed to write to stdin. " ++ err
  | .waitForChild err => "Failed while waiting for child. " ++ err

/-- `impl fmt::Display for std::str::Utf8Error`. -/
def utf8ErrorDisplay (e : Utf8Error) : String :=
  match e.error_len with
  | some l =>
    "invalid utf-8 sequence of " ++ toString l ++ " bytes from index " ++ toString e.valid_up_to
  | none => "incomplete utf-8 byte sequence from index " ++ toString e.valid_up_to

/-- `impl fmt::Display for FromUtf8Error` delegates to the inner `Utf8Error`. -/
def fromUtf8ErrorDisplay (e : FromUtf8Error) : String :=
  utf8ErrorDisplay e.error

/-- `cmd.rs`: `impl fmt::Display for ErrorOutput` — push the non-empty fields in
the fixed order code, stdout, stderr and join with a comma separator. -/
def errorOutputDisplay (e : ErrorOutput) : String :=
  let messages : List String := []
  let messages :=
    match e.exit_code with
    | some code => messages ++ ["code: " ++ toString code]
    | none => messages
  let messages := if e.stdout = "" then messages else messages ++ ["stdout: " ++ e.stdout]
  let messages := if e.stderr = "" then messages else messages ++ ["stderr: " ++ e.stderr]
  String.intercalate ", " messages

/-- `cmd.rs`: `impl fmt::Display for OutputError`. -/
def outputErrorDisplay : OutputError → String
  | .exitFailure err => "Exited with non-zero exit code. " ++ errorOutputDisplay err
  | .readStdout err => "Failed to read stdout. " ++ fromUtf8ErrorDisplay err
  | .readStderr err => "Failed to read stderr. " ++ fromUtf8ErrorDisplay err

/-- `cmd.rs`: `impl fmt::Display for Error`. -/
def cmdErrorDisplay : CmdError → String
  | .execute err _ => "Error while executing command. " ++ executeErrorDisplay err
  | .output err _ => "Error in output from command. " ++ outputErrorDisplay err

/-- Is a byte a UTF-8 continuation byte? -/
def utf8IsCont (b : Nat) : Bool := 0x80 ≤ b && b ≤ 0xBF

/-- UTF-8 validation and decoding of a byte list, following Rust
`str::from_utf8`: on failure, reports the index of the first invalid byte and
the length of the invalid sequence (`none` when the input ends mid-sequence). -/
def utf8DecodeLoop : List Nat → Nat → Except Utf8Error (List Char)
  | [], _ => Except.ok []
  | b :: rest, i =>
    if b < 0x80 then
      match utf8DecodeLoop rest (i + 1) with
      | Except.ok cs => Except.ok (Char.ofNat b :: cs)
      | Except.error e => Except.error e
    else if b < 0xC2 then Except.error ⟨i, some 1⟩
    else if b ≤ 0xDF then
      match rest with
      | [] => Except.error ⟨i, none⟩
      | b2 :: rest2 =>
        if utf8IsCont b2 then
          match utf8DecodeLoop rest2 (i + 2) with
          | Except.ok cs => Except.ok (Char.ofNat ((b - 0xC0) * 0x40 + (b2 - 0x80)) :: cs)
          | Except.error e => Except.error e
        else Except.error ⟨i, some 1⟩
    else if b ≤ 0xEF then
      match rest with
      | [] => Except.error ⟨i, none⟩
      | b2 :: rest2 =>
        if (if b = 0xE0 then 0xA0 ≤ b2 && b2 ≤ 0xBF
            else if b = 0xED then 0x80 ≤ b2 && b2 ≤ 0x9F
            else utf8IsCont b2) then
          match rest2 with
          | [] => Except.error ⟨i, none⟩
          | b3 :: rest3 =>
            if utf8IsCont b3 then
              match utf8DecodeLoop rest3 (i + 3) with
              | Except.ok cs =>
                Except.ok (Char.ofNat ((b - 0xE0) * 0x1000 + (b2 - 0x80) * 0x40 + (b3 - 0x80)) :: cs)
              | Except.error e => Except.error e
            else Except.error ⟨i, some 2⟩
        else Except.error ⟨i, some 1⟩
    else if b ≤ 0xF4 then
      match rest with
      | [] => Except.error ⟨i, none⟩
      | b2 :: rest2 =>
        if (if b = 0xF0 then 0x90 ≤ b2 && b2 ≤ 0xBF
            else if b = 0xF4 then 0x80 ≤ b2 && b2 ≤ 0x8F
            else utf8IsCont b2) then
          match rest2 with
          | [] => Except.error ⟨i, none⟩
          | b3 :: rest3 =>
            if utf8IsCont b3 then
              match rest3 with
              | [] => Except.error ⟨i, none⟩
              | b4 :: rest4 =>
                if utf8IsCont b4 then
                  match utf8DecodeLoop rest4 (i + 4) with
                  | Except.ok cs =>
                    Except.ok (Char.ofNat ((b - 0xF0) * 0x40000 + (b2 - 0x80) * 0x1000 +
                      (b3 - 0x80) * 0x40 + (b4 - 0x80)) :: cs)
                  | Except.error e => Except.error e
                else Except.error ⟨i, some 3⟩
            else Except.error ⟨i, some 2⟩
        else Except.error ⟨i, some 1⟩
    else Except.error ⟨i, some 1⟩

/-- Rust `String::from_utf8`: decode a byte list, or return the bytes together
with the description of the first invalid sequence. -/
def string_from_utf8 (bytes : List Nat) : Except FromUtf8Error String :=
  match utf8DecodeLoop bytes 0 with
  | Except.ok cs => Except.ok (String.mk cs)
  | Except.error e => Except.error ⟨bytes, e⟩

/-- `std::process::Output`: raw bytes of both streams plus the exit status,
modelled as `Option Int` — `some code` for a normal exit, `none` when the
child was terminated by a signal (Unix `ExitStatus::code` semantics). -/
structure ProcessOutput where
  status : Option Int
  stdout : List Nat
  stderr : List Nat
deriving Repr, DecidableEq

/-- Unix `ExitStatus::success`: the exit code is 0. -/
def statusSuccess (status : Option Int) : Bool := status == some 0

/-- `cmd.rs`: `get_output` — classify a raw process output into a
`SuccessOutput` or an `OutputError`. -/
def get_output (output : ProcessOutput) (duration : Nat) :
    Except OutputError SuccessOutput :=
  if statusSuccess output.status then
    match string_from_utf8 output.stdout with
    | Except.error e => Except.error (OutputError.readStdout e)
    | Except.ok stdout =>
      match string_from_utf8 output.stderr with
      | Except.error e => Except.error (OutputError.readStderr e)
      | Except.ok stderr => Except.ok ⟨stdout, stderr, duration⟩
  else
    match string_from_utf8 output.stdout with
    | Except.error e => Except.error (OutputError.readStdout e)
    | Except.ok stdout =>
      match string_from_utf8 output.stderr with
      | Except.error e => Except.error (OutputError.readStderr e)
      | Except.ok stderr =>
        Except.error (OutputError.exitFailure ⟨stdout, stderr, output.status⟩)

/-- `main.rs`: `RunResult` (duration in nanoseconds). -/
structure RunResult where
  stdout : String
  stderr : String
  error : String
  duration : Nat
deriving Repr, DecidableEq

/-- `main.rs`: `to_success_result`. -/
def to_success_result (output : SuccessOutput) : RunResult :=
  { stdout := output.stdout, stderr := output.stderr, error := "",
    duration := output.duration }

/-- `main.rs`: `to_error_result`. -/
def to_error_result : CmdError → RunResult
  | CmdError.output (OutputError.exitFailure output) duration =>
    { stdout := output.stdout, stderr := output.stderr,
      error :=
        match output.exit_code with
        | some exit_code => "Exit code: " ++ toString exit_code
        | none => "",
      duration := duration }
  | error =>
    { stdout := "", stderr := "", error := cmdErrorDisplay error,
      duration := error.duration }

/-- `main.rs`: the `Error` enumeration (named `MainError` here); payloads of
external error types are modelled by their rendered messages. -/
inductive MainError where
  | parseRequest (err : String)
  | noFiles
  | stripWorkPath (err : String)
  | emptyFileName
  | emptyFileContent
  | getTimestamp (err : String)
  | getParentDir (path : String)
  | createParentDir (path : String) (err : String)
  | writeFile (path : String) (err : String)
  | bootstrap (err : CmdError)
  | compile (err : CmdError)
  | serializeRunResult (err : String)
deriving Repr, DecidableEq

/-- The effect of `cmd::run`, abstracted as an oracle mapping a working
directory, a command line and an optional stdin to the outcome the OS
produces for that invocation. -/
def Exec : Type := String → String → Option String → Except CmdError SuccessOutput

/-- `main.rs`: `compile` — run one build command with no stdin, tagging any
failure as `Error::Compile`. -/
def compile (exec : Exec) (work_path : String) (command : String) :
    Except MainError SuccessOutput :=
  match exec work_path command none with
  | Except.ok output => Except.ok output
  | Except.error err => Except.error (MainError.compile err)

/-- `main.rs`: `run_command` — run the final command, converting either
outcome into a `RunResult`. -/
def run_command (exec : Exec) (work_path : String) (command : String)
    (stdin : Option String) : RunResult :=
  match exec work_path command stdin with
  | Except.ok output => to_success_result output
  | Except.error err => to_error_result err

/-- The `for` loop of `run_by_instructions`, instrumented with a trace of the
invocations handed to `cmd::run` (command line with its stdin): each build
command runs in order, and the first failure returns without touching the
rest. -/
def compileAll (exec : Exec) (work_path : String) :
    List String → Except MainError Unit × List (String × Option String)
  | [] => (Except.ok (), [])
  | command :: rest =>
    match compile exec work_path command with
    | Except.error e => (Except.error e, [(command, none)])
    | Except.ok _ =>
      let (r, t) := compileAll exec work_path rest
      (r, (command, none) :: t)

/-- `main.rs`: `run_by_instructions`, instrumented with the trace of all
invocations handed to `cmd::run`.  Build commands run strictly in order with
no stdin; only when all succeed does the run command execute, with the
request's stdin. -/
def run_by_instructions (exec : Exec) (work_path : String)
    (instrs : RunInstructions) (stdin : Option String) :
    Except MainError RunResult × List (String × Option String) :=
  match compileAll exec work_path instrs.build_commands with
  | (Except.ok _, t) =>
    (Except.ok (run_command exec work_path instrs.run_command stdin),
      t ++ [(instrs.run_command, stdin)])
  | (Except.error e, t) => (Except.error e, t)

/-- When every build command succeeds, the build loop succeeds and the trace
lists exactly the build commands in order, each with no stdin. -/
theorem compileAll_ok (exec : Exec) (wp : String) :
    ∀ cs : List String, (∀ c ∈ cs, ∃ o, exec wp c none = Except.ok o) →
      compileAll exec wp cs =
        (Except.ok (), cs.map (fun cm => (cm, (none : Option String))))
  | [], _ => rfl
  | c :: cs, h => by
    obtain ⟨o, ho⟩ := h c (List.mem_cons_self c cs)
    have ih := compileAll_ok exec wp cs (fun c' hc' => h c' (List.mem_cons_of_mem _ hc'))
    simp [compileAll, compile, ho, ih]

/-- When the build command at index `i` is the first to fail, the build loop
returns that failure tagged as a compile error, and the trace is exactly the
first `i + 1` build commands. -/
theorem compileAll_fail (exec : Exec) (wp : String) :
    ∀ (cs : List String) (i : Nat) (c : String) (e : CmdError),
      cs[i]? = some c →
      (∀ j, j < i → ∀ cj, cs[j]? = some cj → ∃ o, exec wp cj none = Except.ok o) →
      exec wp c none = Except.error e →
      compileAll exec wp cs =
        (Except.error (MainError.compile e),
          (cs.take (i + 1)).map (fun cm => (cm, (none : Option String))))
  | [], i, c, e, hc, _, _ => by simp at hc
  | c0 :: cs, 0, c, e, hc, _, hfail => by
    simp at hc
    subst hc
    simp [compileAll, compile, hfail]
  | c0 :: cs, i + 1, c, e, hc, hok, hfail => by
    obtain ⟨o, ho⟩ := hok 0 (Nat.succ_pos i) c0 (by simp)
    have ih := compileAll_fail exec wp cs i c e (by simpa using hc)
      (fun j hj cj hcj => hok (j + 1) (Nat.succ_lt_succ hj) cj (by simpa using hcj))
      hfail
    simp [compileAll, compile, ho, ih]

/-- C1: for every oracle, working directory and `RunInstructions`, the build
commands execute strictly in list order, and the first failing build command
(at index `i`, all earlier ones succeeding) aborts the pipeline: the trace of
executed commands is exactly the first `i + 1` build commands (so no later
build command and not the run command is ever invoked), and the returned
error is that command's failure tagged as `Error::Compile`. -/
theorem c1_first_build_failure_aborts (exec : Exec) (wp : String)
    (instrs : RunInstructions) (stdin : Option String)
    (i : Nat) (c : String) (e : CmdError)
    (hc : instrs.build_commands[i]? = some c)
    (hok : ∀ j, j < i → ∀ cj, instrs.build_commands[j]? = some cj →
      ∃ o, exec wp cj none = Except.ok o)
    (hfail : exec wp c none = Except.error e) :
    run_by_instructions exec wp instrs stdin =
      (Except.error (MainError.compile e),
        (instrs.build_commands.take (i + 1)).map
          (fun cm => (cm, (none : Option String)))) := by
  have h := compileAll_fail exec wp instrs.build_commands i c e hc hok hfail
  simp [run_by_instructions, h]

/-- Oracle for the C1 witness: `cmdA` exits non-zero, everything else
succeeds. -/
def execFailA : Exec := fun _ c _ =>
  if c = "cmdA" then
    Except.error (CmdError.output (OutputError.exitFailure ⟨"", "boom", some 1⟩) 5)
  else Except.ok ⟨"", "", 1⟩

/-- Witness for C1: with build commands `[cmdA, cmdB]` where `cmdA` fails, the
pipeline returns the compile error of `cmdA` and only `cmdA` was executed. -/
theorem c1_first_build_failure_aborts_witness :
    run_by_instructions execFailA "/tmp/work" ⟨["cmdA", "cmdB"], "./a.out"⟩ none =
      (Except.error (MainError.compile
        (CmdError.output (OutputError.exitFailure ⟨"", "boom", some 1⟩) 5)),
        [("cmdA", (none : Option String))]) :=
  c1_first_build_failure_aborts execFailA "/tmp/work" ⟨["cmdA", "cmdB"], "./a.out"⟩
    none 0 "cmdA"
    (CmdError.output (OutputError.exitFailure ⟨"", "boom", some 1⟩) 5)
    rfl (fun j hj => absurd hj (Nat.not_lt_zero j)) rfl

/-- C2: once all build commands succeed, the pipeline always returns `Ok` with
the run command's `RunResult` (its invocation, with the request's stdin, is
the last traced command), and any failure of the run command — non-zero exit,
decode failure or execution fault — is converted by `run_command` into a
`RunResult` via `to_error_result` rather than propagated as an error. -/
theorem c2_run_outcome_always_result (exec : Exec) (wp : String)
    (instrs : RunInstructions) (stdin : Option String)
    (hok : ∀ c ∈ instrs.build_commands, ∃ o, exec wp c none = Except.ok o) :
    run_by_instructions exec wp instrs stdin =
      (Except.ok (run_command exec wp instrs.run_command stdin),
        instrs.build_commands.map (fun cm => (cm, (none : Option String))) ++
          [(instrs.run_command, stdin)]) ∧
    (∀ e, exec wp instrs.run_command stdin = Except.error e →
      run_command exec wp instrs.run_command stdin = to_error_result e) ∧
    (∀ o, exec wp instrs.run_command stdin = Except.ok o →
      run_command exec wp instrs.run_command stdin = to_success_result o) := by
  refine ⟨?_, ?_, ?_⟩
  · have h := compileAll_ok exec wp instrs.build_commands hok
    simp [run_by_instructions, h]
  · intro e he
    simp [run_command, he]
  · intro o ho
    simp [run_command, ho]

/-- Oracle for the C2 witness: the run command `./a.out` exits non-zero, the
build command succeeds. -/
def execRunFails : Exec := fun _ c _ =>
  if c = "./a.out" then
    Except.error (CmdError.output (OutputError.exitFailure ⟨"out", "err", some 2⟩) 9)
  else Except.ok ⟨"", "", 1⟩

/-- Witness for C2: with one succeeding build command and a run command that
exits non-zero, the pipeline returns `Ok` of the converted `RunResult`. -/
theorem c2_run_outcome_always_result_witness :
    run_by_instructions execRunFails "/tmp/work" ⟨["build1"], "./a.out"⟩ none =
      (Except.ok (run_command execRunFails "/tmp/work" "./a.out" none),
        (["build1"].map (fun cm => (cm, (none : Option String)))) ++
          [("./a.out", (none : Option String))]) :=
  (c2_run_outcome_always_result execRunFails "/tmp/work" ⟨["build1"], "./a.out"⟩ none
    (by
      intro c hc
      simp at hc
      subst hc
      exact ⟨⟨"", "", 1⟩, rfl⟩)).1

/-- C3: `get_output` returns a `SuccessOutput` iff the exit status denotes
success (exit code 0) and both streams decode as valid UTF-8; an invalid
stdout yields the `ReadStdout` error, a valid stdout with invalid stderr
yields the `ReadStderr` error (never a lossy decode), and a non-success exit
with both streams valid yields `ExitFailure` carrying the decoded streams and
the optional exit code — which is the status itself, hence absent exactly
when the child was terminated by a signal. -/
theorem c3_get_output_classification :
    (∀ (output : ProcessOutput) (d : Nat),
      (∃ s, get_output output d = Except.ok s) ↔
        (statusSuccess output.status = true ∧
          (string_from_utf8 output.stdout).isOk = true ∧
          (string_from_utf8 output.stderr).isOk = true)) ∧
    (∀ (output : ProcessOutput) (d : Nat) (s : SuccessOutput),
      get_output output d = Except.ok s →
        output.status = some 0 ∧
        string_from_utf8 output.stdout = Except.ok s.stdout ∧
        string_from_utf8 output.stderr = Except.ok s.stderr ∧
        s.duration = d) ∧
    (∀ (output : ProcessOutput) (d : Nat) (e : FromUtf8Error),
      string_from_utf8 output.stdout = Except.error e →
        get_output output d = Except.error (OutputError.readStdout e)) ∧
    (∀ (output : ProcessOutput) (d : Nat) (s : String) (e : FromUtf8Error),
      string_from_utf8 output.stdout = Except.ok s →
      string_from_utf8 output.stderr = Except.error e →
        get_output output d = Except.error (OutputError.readStderr e)) ∧
    (∀ (output : ProcessOutput) (d : Nat) (s t : String),
      statusSuccess output.status = false →
      string_from_utf8 output.stdout = Except.ok s →
      string_from_utf8 output.stderr = Except.ok t →
        get_output output d =
          Except.error (OutputError.exitFailure ⟨s, t, output.status⟩)) := by
  refine ⟨?_, ?_, ?_, ?_, ?_⟩
  · intro output d
    constructor
    · rintro ⟨s, hs⟩
      rcases hst : statusSuccess output.status with _ | _ <;>
        rcases hso : string_from_utf8 output.stdout with e | so <;>
        rcases hse : string_from_utf8 output.stderr with e' | se <;>
        simp [get_output, hst, hso, hse, Except.isOk, Except.toBool] at hs ⊢
    · rintro ⟨hst, hso, hse⟩
      rcases hso' : string_from_utf8 output.stdout with e | so <;>
        rcases hse' : string_from_utf8 output.stderr with e' | se <;>
        simp [hso', hse', Except.isOk, Except.toBool] at hso hse
      exact ⟨⟨so, se, d⟩, by simp [get_output, hst, hso', hse']⟩
  · intro output d s hs
    rcases hst : statusSuccess output.status with _ | _ <;>
      rcases hso : string_from_utf8 output.stdout with e | so <;>
      rcases hse : string_from_utf8 output.stderr with e' | se <;>
      simp [get_output, hst, hso, hse] at hs
    cases hs
    exact ⟨by simpa [statusSuccess] using hst, by simp [hso],
      by simp [hse], rfl⟩
  · intro output d e he
    rcases hst : statusSuccess output.status with _ | _ <;>
      simp [get_output, hst, he]
  · intro output d s e hs he
    rcases hst : statusSuccess output.status with _ | _ <;>
      simp [get_output, hst, hs, he]
  · intro output d s t hst hs ht
    simp [get_output, hst, hs, ht]

/-- Witness for C3: a process that exited with code 2 after writing `ok` to
stdout and `err` to stderr is classified as an `ExitFailure` carrying the
decoded streams and the code. -/
theorem c3_get_output_classification_witness :
    get_output ⟨some 2, [111, 107], [101, 114, 114]⟩ 7 =
      Except.error (OutputError.exitFailure ⟨"ok", "err", some 2⟩) :=
  c3_get_output_classification.2.2.2.2 ⟨some 2, [111, 107], [101, 114, 114]⟩ 7
    "ok" "err" rfl rfl rfl

/-- C4: F# and OCaml emit a single build command listing the auxiliary files
filtered to extension `fs` / `ml` (exact, case-sensitive) in reversed
submission order with the main file last, while C lists the main file first
followed by the `.c` auxiliaries in original order; the concrete instances
show the reversal and that an upper-case extension is excluded. -/
theorem c4_fsharp_ocaml_reversed_order :
    (∀ (main : String) (others : List String),
      run_instructions Language.Fsharp ⟨main, others⟩ =
        ⟨["fsharpc --out:a.exe " ++
          space_separated_files ((filter_by_extension others "fs").reverse) ++
          " " ++ main], "mono a.exe"⟩) ∧
    (∀ (main : String) (others : List String),
      run_instructions Language.Ocaml ⟨main, others⟩ =
        ⟨["ocamlc -o a.out " ++
          space_separated_files ((filter_by_extension others "ml").reverse) ++
          " " ++ main], "./a.out"⟩) ∧
    (∀ (main : String) (others : List String),
      run_instructions Language.C ⟨main, others⟩ =
        ⟨["clang -o a.out -lm " ++ main ++ " " ++
          space_separated_files (filter_by_extension others "c")], "./a.out"⟩) ∧
    run_instructions Language.Fsharp ⟨"main.fs", ["a.fs", "b.fs", "c.FS", "d.txt"]⟩ =
      ⟨["fsharpc --out:a.exe b.fs a.fs main.fs"], "mono a.exe"⟩ ∧
    run_instructions Language.Ocaml ⟨"main.ml", ["a.ml", "b.ml"]⟩ =
      ⟨["ocamlc -o a.out b.ml a.ml main.ml"], "./a.out"⟩ ∧
    run_instructions Language.C ⟨"main.c", ["util.c", "notes.txt"]⟩ =
      ⟨["clang -o a.out -lm main.c util.c"], "./a.out"⟩ :=
  ⟨fun _ _ => rfl, fun _ _ => rfl, fun _ _ => rfl, rfl, rfl, rfl⟩

/-- For an all-ASCII character list, the UTF-8 byte count equals the character
count. -/
theorem sum_charUtf8Size_ascii :
    ∀ l : List Char, (∀ c ∈ l, c.toNat < 128) →
      (l.map charUtf8Size).sum = l.length
  | [], _ => rfl
  | c :: cs, h => by
    have hc : c.toNat < 128 := h c (List.mem_cons_self c cs)
    have ih := sum_charUtf8Size_ascii cs (fun c' h' => h c' (List.mem_cons_of_mem _ h'))
    simp [charUtf8Size, hc, ih, Nat.add_comm]

/-- C5: Java and Kotlin derive the run command from the main file's stem via
`titlecase_ascii` (Java with no suffix, Kotlin with suffix `Kt`);
`titlecase_ascii` leaves a stem unchanged when it contains a non-ASCII
character or has fewer than two characters; concrete instances:
`HelloWorld.java ↦ java HelloWorld`, `hello.java ↦ java Hello`, and a
single-non-ASCII-character stem is unchanged. -/
theorem c5_java_kotlin_entry_point :
    (∀ (main : String) (others : List String),
      run_instructions Language.Java ⟨main, others⟩ =
        ⟨["javac " ++ main],
          "java " ++ titlecase_ascii ((pathFileStem main).getD "Main")⟩) ∧
    (∀ (main : String) (others : List String),
      run_instructions Language.Kotlin ⟨main, others⟩ =
        ⟨["kotlinc " ++ main],
          "kotlin " ++ titlecase_ascii ((pathFileStem main).getD "Main") ++ "Kt"⟩) ∧
    (∀ s : String, (∃ c ∈ s.data, 128 ≤ c.toNat) → titlecase_ascii s = s) ∧
    (∀ s : String, s.data.length < 2 → titlecase_ascii s = s) ∧
    run_instructions Language.Java ⟨"HelloWorld.java", []⟩ =
      ⟨["javac HelloWorld.java"], "java HelloWorld"⟩ ∧
    run_instructions Language.Java ⟨"hello.java", []⟩ =
      ⟨["javac hello.java"], "java Hello"⟩ ∧
    run_instructions Language.Java ⟨"é.java", []⟩ =
      ⟨["javac é.java"], "java é"⟩ ∧
    run_instructions Language.Kotlin ⟨"hello.kt", []⟩ =
      ⟨["kotlinc hello.kt"], "kotlin HelloKt"⟩ := by
  refine ⟨fun _ _ => rfl, fun _ _ => rfl, ?_, ?_, rfl, rfl, rfl, rfl⟩
  · intro s hs
    obtain ⟨c, hc, h128⟩ := hs
    have hb : str_is_ascii s = false := by
      simp only [str_is_ascii, List.all_eq_false, decide_eq_true_eq]
      exact ⟨c, hc, by omega⟩
    simp [titlecase_ascii, hb]
  · intro s hlen
    rcases hb : str_is_ascii s with _ | _
    · simp [titlecase_ascii, hb]
    · have hbytes : strByteLen s = s.data.length := by
        have hall : ∀ c ∈ s.data, c.toNat < 128 := by
          simpa only [str_is_ascii, List.all_eq_true, decide_eq_true_eq] using hb
        simpa [strByteLen] using sum_charUtf8Size_ascii s.data hall
      have hcond : str_is_ascii s = false ∨ strByteLen s < 2 :=
        Or.inr (by rw [hbytes]; exact hlen)
      unfold titlecase_ascii
      rw [if_pos hcond]

/-- Witness for C5: a single-non-ASCII-character stem is left unchanged by
`titlecase_ascii`. -/
theorem c5_java_kotlin_entry_point_witness : titlecase_ascii "é" = "é" :=
  c5_java_kotlin_entry_point.2.2.1 "é" (by decide)

/-- C6 counterexample: the claim requires one or more build commands for Zig,
but the Zig arm returns an empty build command list and a run command that
invokes the source file through the toolchain, not a built artifact. -/
theorem c6_counterexample_zig_no_build :
    (run_instructions Language.Zig ⟨"main.zig", []⟩).build_commands = [] ∧
    run_instructions Language.Zig ⟨"main.zig", []⟩ = ⟨[], "zig run main.zig"⟩ :=
  ⟨rfl, rfl⟩

/-- C6 amended: Rust, Go and Assembly emit one or more build commands
producing the fixed artifact `a.out` and run `./a.out` — Assembly exactly two
build commands, assemble (nasm) then link (ld), in that order — while Zig,
Nim and Crystal emit zero build commands and a run command that compiles and
runs the main file directly. -/
theorem c6_amended_build_shapes :
    ∀ (main : String) (others : List String),
      run_instructions Language.Rust ⟨main, others⟩ =
        ⟨["rustc -o a.out " ++ main], "./a.out"⟩ ∧
      run_instructions Language.Go ⟨main, others⟩ =
        ⟨["go build -o a.out " ++ main], "./a.out"⟩ ∧
      run_instructions Language.Assembly ⟨main, others⟩ =
        ⟨["nasm -f elf64 -o a.o " ++ main, "ld -o a.out a.o"], "./a.out"⟩ ∧
      run_instructions Language.Zig ⟨main, others⟩ = ⟨[], "zig run " ++ main⟩ ∧
      run_instructions Language.Nim ⟨main, others⟩ =
        ⟨[], "nim --hints:off --verbosity:0 compile --run " ++ main⟩ ∧
      run_instructions Language.Crystal ⟨main, others⟩ =
        ⟨[], "crystal run " ++ main⟩ :=
  fun _ _ => ⟨rfl, rfl, rfl, rfl, rfl, rfl⟩

/-- C7: the rendering of an `ErrorOutput` joins exactly the present/non-empty
members of {`code: <n>`, `stdout: <text>`, `stderr: <text>`} with `", "`
separators in that fixed order, omitting every empty field; a command that
exits 2 after writing `boom` to stderr renders as `code: 2, stderr: boom`. -/
theorem c7_error_output_rendering :
    (∀ e : ErrorOutput,
      errorOutputDisplay e =
        String.intercalate ", "
          (List.filterMap id
            [e.exit_code.map (fun code => "code: " ++ toString code),
             if e.stdout = "" then none else some ("stdout: " ++ e.stdout),
             if e.stderr = "" then none else some ("stderr: " ++ e.stderr)])) ∧
    errorOutputDisplay ⟨"", "boom", some 2⟩ = "code: 2, stderr: boom" := by
  constructor
  · intro e
    rcases e with ⟨so, se, code⟩
    rcases code with _ | c <;> by_cases hso : so = "" <;> by_cases hse : se = "" <;>
      simp [errorOutputDisplay, hso, hse]
  · rfl

/-- C8 counterexample: the rendered top-level message separates the tag from
the cause with a period and a space, not with a colon: for the stdin-capture
fault the message is `Error while executing command. Failed to capture
stdin.`, not `Error while executing command: Failed to capture stdin.`. -/
theorem c8_counterexample_period_not_colon :
    cmdErrorDisplay (CmdError.execute ExecuteError.captureStdin 3) =
      "Error while executing command. Failed to capture stdin." ∧
    cmdErrorDisplay (CmdError.execute ExecuteError.captureStdin 3) ≠
      "Error while executing command: Failed to capture stdin." :=
  ⟨rfl, by decide⟩

/-- C8 amended: every execution fault renders as
`Error while executing command. <cause>` and every output fault as
`Error in output from command. <cause>` (period and space, not colon),
where the cause is the fault's own rendering. -/
theorem c8_amended_top_level_rendering :
    (∀ (e : ExecuteError) (d : Nat),
      cmdErrorDisplay (CmdError.execute e d) =
        "Error while executing command. " ++ executeErrorDisplay e) ∧
    (∀ (o : OutputError) (d : Nat),
      cmdErrorDisplay (CmdError.output o d) =
        "Error in output from command. " ++ outputErrorDisplay o) ∧
    cmdErrorDisplay (CmdError.output (OutputError.exitFailure ⟨"", "boom", some 2⟩) 1) =
      "Error in output from command. Exited with non-zero exit code. code: 2, stderr: boom" :=
  ⟨fun _ _ => rfl, fun _ _ => rfl, rfl⟩

/-- C9: a run that exited unsuccessfully with no numeric exit code (terminated
by a signal) is converted by `to_error_result` into a `RunResult` whose error
field is the empty string — exactly the error field of every success result,
so the serialized error field cannot distinguish the two. -/
theorem c9_signal_killed_error_empty :
    ∀ (out err : String) (d : Nat) (o : SuccessOutput),
      to_error_result (CmdError.output (OutputError.exitFailure ⟨out, err, none⟩) d) =
        ⟨out, err, "", d⟩ ∧
      (to_success_result o).error = "" ∧
      (to_error_result (CmdError.output (OutputError.exitFailure ⟨out, err, none⟩) d)).error =
        (to_success_result o).error :=
  fun _ _ _ _ => ⟨rfl, rfl, rfl⟩

/-- C10: the C++ arm filters auxiliary files by extension exactly `c`, so an
auxiliary whose extension is `cpp` (or `cc`, `cxx`) never reaches the single
`clang++` build command, which lists the main file and the `.c` auxiliaries
only. -/
theorem c10_cpp_filters_c_extension :
    (∀ (main : String) (others : List String),
      run_instructions Language.Cpp ⟨main, others⟩ =
        ⟨["clang++ -std=c++11 -o a.out " ++ main ++ " " ++
          space_separated_files (filter_by_extension others "c")], "./a.out"⟩) ∧
    (∀ (others : List String) (f : String),
      pathExtension f = some "cpp" → f ∉ filter_by_extension others "c") ∧
    run_instructions Language.Cpp ⟨"main.cpp", ["util.cpp", "x.cc", "y.cxx", "helper.c"]⟩ =
      ⟨["clang++ -std=c++11 -o a.out main.cpp helper.c"], "./a.out"⟩ := by
  refine ⟨fun _ _ => rfl, ?_, rfl⟩
  intro others f hf hmem
  rw [filter_by_extension, List.mem_filter] at hmem
  rcases hmem with ⟨-, h⟩
  rw [hf] at h
  simp at h

/-- Witness for C10: an auxiliary file `util.cpp` is excluded by the `c`
extension filter. -/
theorem c10_cpp_filters_c_extension_witness :
    "util.cpp" ∉ filter_by_extension ["util.cpp"] "c" :=
  c10_cpp_filters_c_extension.2.1 ["util.cpp"] "util.cpp" rfl

end CodeRunner
